import Mathlib

/-!
Shallow embedding of `src/main.py` (`SecureFarcasterBot`) for verification of
the natural-language specification.

Modelling conventions:
* HTTP transport is abstracted by a stream `attempts : Nat → AttemptResult`
  giving the outcome of the i-th attempt of a request: either a raised
  transport exception (`requests.exceptions.RequestException`) or a response.
* A response carries its status code, its `Retry-After` header (absent,
  present-but-unparseable-as-int, or a parsed value), and its body: `none`
  models a body that `response.json()` cannot parse (it raises), `some none`
  a parsed JSON without `result.items`, `some (some items)` a parsed item list.
* Python exceptions escaping a function are modelled with `Except Unit`:
  `Except.error ()` is an uncaught exception, `Except.ok` a normal return.
* `time.sleep` calls are logged in a `sleeps` list (durations, in order).
* `random.shuffle`/`random.uniform` are abstracted: the shuffled feed list is
  taken as an input (any permutation of the fetched list), and sleep durations
  drawn from `random.uniform` are not modelled (only whether a sleep happens).
-/

/-- The `Retry-After` header of a response: absent, present but not parseable
by Python `int(...)` (which then raises `ValueError`), or parseable as `n`. -/
inductive RetryAfterHeader where
  | absent
  | invalid
  | val (n : Nat)
deriving DecidableEq, Repr

/-- One cast object inside a feed item (`item['cast']` in `get_feed`):
optional `hash`, optional `author.fid`, optional `text`. -/
structure CastObj where
  hash : Option String
  fid : Option Nat
  text : Option String
deriving DecidableEq, Repr

/-- One raw item of the feed response (`data['result']['items'][i]`):
it may or may not contain a `'cast'` key. -/
structure FeedItem where
  cast : Option CastObj
deriving DecidableEq, Repr

/-- An HTTP response as observed by the bot: status code, `Retry-After`
header, and body. `body = none` means `response.json()` raises;
`body = some none` means parsed JSON without `result`/`items`;
`body = some (some items)` means a parsed feed item list. -/
structure Response where
  status : Nat
  retryAfter : RetryAfterHeader
  body : Option (Option (List FeedItem))
deriving DecidableEq, Repr

/-- Outcome of one attempt inside `make_request`: either the
`self.session.request` call raises a `RequestException`, or it returns a
response. -/
inductive AttemptResult where
  | exc
  | resp (r : Response)
deriving DecidableEq, Repr

/-- Trace of one `make_request` call: the returned value (`Except.error ()`
when an uncaught exception, such as `int()` on an invalid `Retry-After`,
escapes; `Except.ok none` when the function returns `None`; `Except.ok
(some r)` when it returns response `r`), the durations of the `time.sleep`
calls it made, in order, and how many loop iterations (attempts) ran. -/
structure ReqTrace where
  result : Except Unit (Option Response)
  sleeps : List Nat
  attemptsUsed : Nat
deriving Repr

/-- The body of `make_request`'s `for attempt in range(self.max_retries)`
loop (src/main.py lines 145-170). `fuel` is the number of loop iterations
still available (`maxRetries - i` when the call starts at attempt 0), `i`
the current value of the Python loop variable `attempt`.

* attempt outcome `exc` (a `RequestException`): if `attempt <
  self.max_retries - 1`, sleep `2 ** attempt` and go on to the next
  iteration, else return `None`;
* a 429 response: compute `int(response.headers.get('Retry-After', 60))`
  (60 when absent, an uncaught `ValueError` when present but invalid),
  sleep that long, and `continue` — which moves to the NEXT iteration of
  the `for` loop, consuming an attempt;
* any other response: return it.

When the `for` loop runs out of iterations, Python falls off the end of the
function and returns `None`. -/
def makeRequestGo (attempts : Nat → AttemptResult) (maxRetries : Nat) :
    Nat → Nat → ReqTrace
  | 0, _ => { result := .ok none, sleeps := [], attemptsUsed := 0 }
  | fuel + 1, i =>
    match attempts i with
    | .exc =>
      if i < maxRetries - 1 then
        let rest := makeRequestGo attempts maxRetries fuel (i + 1)
        { result := rest.result, sleeps := 2 ^ i :: rest.sleeps,
          attemptsUsed := rest.attemptsUsed + 1 }
      else
        { result := .ok none, sleeps := [], attemptsUsed := 1 }
    | .resp r =>
      if r.status = 429 then
        match r.retryAfter with
        | .invalid => { result := .error (), sleeps := [], attemptsUsed := 1 }
        | .absent =>
          let rest := makeRequestGo attempts maxRetries fuel (i + 1)
          { result := rest.result, sleeps := 60 :: rest.sleeps,
            attemptsUsed := rest.attemptsUsed + 1 }
        | .val t =>
          let rest := makeRequestGo attempts maxRetries fuel (i + 1)
          { result := rest.result, sleeps := t :: rest.sleeps,
            attemptsUsed := rest.attemptsUsed + 1 }
      else
        { result := .ok (some r), sleeps := [], attemptsUsed := 1 }

/-- Embedding of `SecureFarcasterBot.make_request` (src/main.py lines 140-170): run the
retry loop from attempt 0 with `maxRetries` iterations available. -/
def make_request (attempts : Nat → AttemptResult) (maxRetries : Nat) : ReqTrace :=
  makeRequestGo attempts maxRetries maxRetries 0

/-- A usable target extracted by `get_feed` (the dict `{'hash': ..., 'fid':
..., 'text': ...}` appended to `cast_data`). -/
structure Target where
  hash : String
  fid : Nat
  text : String
deriving DecidableEq, Repr

/-- The text field computed by `get_feed` (src/main.py line 194):
`item['cast'].get('text', '')[:100] + '...' if item['cast'].get('text')
else ''` — with Python truthiness, a missing or empty text gives `''`. -/
def castText (c : CastObj) : String :=
  match c.text with
  | some t => if t ≠ "" then t.take 100 ++ "..." else ""
  | none => ""

/-- The per-item filter of `get_feed` (src/main.py lines 187-195): an item
yields a target iff it has a `'cast'` key whose `hash` is truthy (present,
non-empty) and whose `author.fid` is truthy (present, non-zero). -/
def usableTarget (item : FeedItem) : Option Target :=
  match item.cast with
  | none => none
  | some c =>
    match c.hash, c.fid with
    | some h, some f =>
      if h ≠ "" ∧ f ≠ 0 then some { hash := h, fid := f, text := castText c }
      else none
    | some _, none => none
    | none, _ => none

/-- Embedding of `SecureFarcasterBot.get_feed` (src/main.py lines 172-200), as a function
of the value `make_request` returned for the `feed-items` call.
`Except.error ()` models the uncaught exception raised by
`response.json()` on an unparseable 200 body; otherwise the function
returns the pair `(success, cast_data)`.

The raw item list is truncated to `limit` (`items[:limit]`) BEFORE the
usability filter runs. -/
def get_feed (response : Option Response) (limit : Nat) :
    Except Unit (Bool × List Target) :=
  match response with
  | none => .ok (false, [])
  | some r =>
    if r.status = 200 then
      match r.body with
      | none => .error ()
      | some none => .ok (true, [])
      | some (some items) => .ok (true, (items.take limit).filterMap usableTarget)
    else .ok (false, [])

/-- Embedding of `SecureFarcasterBot.like_cast` (src/main.py lines 202-205), as a function
of the response `make_request` returned:
`return response.status_code == 200 if response else False`. -/
def like_cast (response : Option Response) : Bool :=
  match response with
  | some r => r.status == 200
  | none => false

/-- Embedding of `SecureFarcasterBot.recast` (src/main.py lines 207-210):
`return response.status_code == 200 if response else False`. -/
def recast (response : Option Response) : Bool :=
  match response with
  | some r => r.status == 200
  | none => false

/-- Embedding of `SecureFarcasterBot.follow_user` (src/main.py lines 212-215):
`return response.status_code == 200 if response else False`. -/
def follow_user (response : Option Response) : Bool :=
  match response with
  | some r => r.status == 200
  | none => false

/-- Embedding of `SecureFarcasterBot.post_cast` (src/main.py lines 217-220):
`return response.status_code == 201 if response else False`. -/
def post_cast (response : Option Response) : Bool :=
  match response with
  | some r => r.status == 201
  | none => false

/-- The action kinds handled by the focused-action loop. -/
inductive ActionType where
  | like
  | recast
  | follow
deriving DecidableEq, Repr

/-- Observable state of one `execute_focused_action` run:
* `successCount` — the local variable `success_count`;
* `followedFids` — the set `followed_fids` (kept as an insertion-ordered
  list; an fid is added at most once, on a successful follow call);
* `callLog` — the author fids passed to `self.follow_user`, one entry per
  API call issued, in order;
* `sleptIters` — the 1-based iteration indexes at which the inter-action
  `time.sleep(wait)` ran;
* `processed` — how many loop iterations (targets) were processed. -/
structure RunState where
  successCount : Nat
  followedFids : List Nat
  callLog : List Nat
  sleptIters : List Nat
  processed : Nat
deriving DecidableEq, Repr

/-- Initial state of a run (`success_count = 0`, `followed_fids = set()`). -/
def initRunState : RunState :=
  { successCount := 0, followedFids := [], callLog := [], sleptIters := [],
    processed := 0 }

/-- The `for idx, cast_info in enumerate(selected_casts, 1)` loop of
`execute_focused_action` (src/main.py lines 249-295). `api idx` abstracts
the boolean outcome of the single action API call made at iteration `idx`
(the result of `like_cast` / `recast` / `follow_user` on that iteration's
response); `tc` is the (already adjusted) `target_count`.

Per iteration:
* like / recast: call the API; on success `success_count += 1`; then if
  `idx < target_count`, sleep the inter-action delay;
* follow, author not yet in `followed_fids`: call `follow_user`; on success
  add the fid to `followed_fids` and `success_count += 1`; then the same
  conditional delay;
* follow, author already in `followed_fids`: `success_count += 1` and
  `continue` — no API call and no delay for this iteration. -/
def focusedLoop (action : ActionType) (api : Nat → Bool) (tc : Nat) :
    List Target → Nat → RunState → RunState
  | [], _, s => s
  | t :: rest, idx, s =>
    match action with
    | .follow =>
      if t.fid ∈ s.followedFids then
        focusedLoop action api tc rest (idx + 1)
          { s with successCount := s.successCount + 1,
                   processed := s.processed + 1 }
      else
        let ok := api idx
        let s1 : RunState :=
          { successCount := if ok then s.successCount + 1 else s.successCount,
            followedFids := if ok then s.followedFids ++ [t.fid] else s.followedFids,
            callLog := s.callLog ++ [t.fid],
            sleptIters := if idx < tc then s.sleptIters ++ [idx] else s.sleptIters,
            processed := s.processed + 1 }
        focusedLoop action api tc rest (idx + 1) s1
    | _ =>
      let ok := api idx
      let s1 : RunState :=
        { successCount := if ok then s.successCount + 1 else s.successCount,
          followedFids := s.followedFids,
          callLog := s.callLog,
          sleptIters := if idx < tc then s.sleptIters ++ [idx] else s.sleptIters,
          processed := s.processed + 1 }
      focusedLoop action api tc rest (idx + 1) s1

/-- Embedding of `SecureFarcasterBot.execute_focused_action` (src/main.py lines 222-298),
as a function of the feed fetch outcome. `fetchOk` and `shuffled` are the
`(success, cast_data)` pair returned by `get_feed`, with `cast_data` given
AFTER the in-place `random.shuffle` (shuffling is modelled as an arbitrary
permutation supplied as input; it preserves length and emptiness, which are
all the pre-shuffle code inspects).

* if the fetch failed or the list is empty, return 0 immediately;
* if fewer targets than requested, silently lower `target_count`;
* run the action loop on the first `target_count` shuffled targets.

The full final `RunState` is returned; the Python function's return value
is its `successCount`. -/
def execute_focused_action (action : ActionType) (api : Nat → Bool)
    (target_count : Nat) (fetchOk : Bool) (shuffled : List Target) : RunState :=
  if fetchOk = false ∨ shuffled = [] then initRunState
  else
    let tc := if shuffled.length < target_count then shuffled.length else target_count
    let selected := shuffled.take tc
    focusedLoop action api tc selected 1 initRunState

/-- The batch-splitting `while remaining > 0` loop of `run_focused_mode`
(src/main.py lines 389-407), returning the batch sizes passed to
`execute_focused_action`, in order. `fuel` bounds the iterations (the loop
decreases `remaining` by `min batchSize remaining` each round, which is
positive whenever `batchSize > 0`; `fuel = remaining` then suffices). -/
def batchLoop (batchSize : Nat) : Nat → Nat → List Nat
  | 0, _ => []
  | _, 0 => []
  | fuel + 1, r + 1 =>
    let cur := min batchSize (r + 1)
    cur :: batchLoop batchSize fuel (r + 1 - cur)

/-- The per-action dispatch of `run_focused_mode` (src/main.py lines
384-410): the sizes of the `execute_focused_action` runs issued for one
action with target `target`. If `target > self.batch_size`, set
`batch_size = min(self.batch_size, target)` and run the batch loop from
`remaining = target`; else a single run of size `target`. -/
def run_focused_batches (selfBatchSize target : Nat) : List Nat :=
  if target > selfBatchSize then
    batchLoop (min selfBatchSize target) target target
  else [target]

/-- The per-action dispatch of `run_continuous_mode` (src/main.py lines
530-533): one `execute_focused_action` call with the full target, with no
batch splitting. -/
def run_continuous_batches (target : Nat) : List Nat :=
  [target]

/-! ### Helper lemmas about `make_request` -/

/-- A stream of 429 responses with a valid `Retry-After: t` header makes the
retry loop sleep `t` once per remaining iteration and then return `None`. -/
lemma makeRequestGo_429_val (t : Nat) (b : Option (Option (List FeedItem)))
    (mr : Nat) : ∀ (fuel i : Nat),
    makeRequestGo (fun _ => .resp ⟨429, .val t, b⟩) mr fuel i =
      { result := .ok none, sleeps := List.replicate fuel t, attemptsUsed := fuel } := by
  intro fuel
  induction fuel with
  | zero => intro i; rfl
  | succ n ih => intro i; simp [makeRequestGo, ih, List.replicate_succ]

/-- A stream of 429 responses with no `Retry-After` header makes the retry
loop sleep 60 once per remaining iteration and then return `None`. -/
lemma makeRequestGo_429_absent (b : Option (Option (List FeedItem)))
    (mr : Nat) : ∀ (fuel i : Nat),
    makeRequestGo (fun _ => .resp ⟨429, .absent, b⟩) mr fuel i =
      { result := .ok none, sleeps := List.replicate fuel 60, attemptsUsed := fuel } := by
  intro fuel
  induction fuel with
  | zero => intro i; rfl
  | succ n ih => intro i; simp [makeRequestGo, ih, List.replicate_succ]

/-- A stream of transport exceptions: the loop sleeps `2 ^ attempt` after
every non-final attempt and returns `None` after the final one. -/
lemma makeRequestGo_exc (mr : Nat) : ∀ (fuel i : Nat), i + fuel = mr →
    makeRequestGo (fun _ => .exc) mr fuel i =
      { result := .ok none,
        sleeps := (List.range' i (fuel - 1)).map (2 ^ ·),
        attemptsUsed := fuel } := by
  intro fuel
  induction fuel with
  | zero => intro i h; rfl
  | succ n ih =>
    intro i h
    by_cases hn : n = 0
    · subst hn
      have hlt : ¬ i < mr - 1 := by omega
      simp [makeRequestGo, hlt]
    · have hlt : i < mr - 1 := by omega
      have hrec := ih (i + 1) (by omega)
      simp only [makeRequestGo, hlt, if_true, hrec]
      obtain ⟨m, rfl⟩ : ∃ m, n = m + 1 := ⟨n - 1, by omega⟩
      simp [List.range'_succ]

/-! ### Claims C1 and C9: the retry loop of `make_request` -/

/-- C1 counterexample: three consecutive HTTP 429 responses (no `Retry-After`
header) with `max_retries = 3` make `make_request` sleep 60s three times and
then return `None` — the absent-response failure. The 429 branch's
`continue` advances the `for attempt in range(max_retries)` loop, so each
429 consumes a retry-count slot and a finite run of 429s exhausts the
budget, contradicting the claim that consecutive 429s never cause the call
to fail. -/
theorem make_request_429_exhausts_budget :
    make_request (fun _ => AttemptResult.resp ⟨429, RetryAfterHeader.absent, none⟩) 3 =
      { result := Except.ok none, sleeps := [60, 60, 60], attemptsUsed := 3 } := rfl

/-- C1 (amended): on HTTP 429 the client sleeps for the `Retry-After`
duration (60s when the header is absent) and retries, but each 429 consumes
a retry-count slot: `maxRetries` consecutive 429 responses exhaust the
budget and the call returns `None`. A present-but-unparseable `Retry-After`
header raises an uncaught `ValueError` instead of defaulting to 60s. -/
theorem make_request_429_consumes_retry_slots (t mr : Nat)
    (b : Option (Option (List FeedItem))) :
    make_request (fun _ => AttemptResult.resp ⟨429, RetryAfterHeader.val t, b⟩) mr =
      { result := Except.ok none, sleeps := List.replicate mr t, attemptsUsed := mr } ∧
    make_request (fun _ => AttemptResult.resp ⟨429, RetryAfterHeader.absent, b⟩) mr =
      { result := Except.ok none, sleeps := List.replicate mr 60, attemptsUsed := mr } ∧
    make_request (fun _ => AttemptResult.resp ⟨429, RetryAfterHeader.invalid, b⟩) (mr + 1) =
      { result := Except.error (), sleeps := [], attemptsUsed := 1 } := by
  refine ⟨makeRequestGo_429_val t b mr mr 0, makeRequestGo_429_absent b mr mr 0, ?_⟩
  simp [make_request, makeRequestGo]

/-- C9: a transport-level failure (`RequestException`) on a non-final
attempt is followed by a sleep of `2 ^ attempt` seconds and a retry; on the
final attempt it makes `make_request` return `None` with no further
attempts; and a stream of transport failures with `maxRetries` attempts
runs exactly `maxRetries` attempts, sleeping `2^0, 2^1, ...` between
consecutive ones (`[1, 2]` for `maxRetries = 3`), and ends in the
transport-failure result. -/
theorem make_request_transport_backoff :
    (∀ (attempts : Nat → AttemptResult) (mr fuel i : Nat),
        attempts i = AttemptResult.exc → i < mr - 1 →
        makeRequestGo attempts mr (fuel + 1) i =
          { result := (makeRequestGo attempts mr fuel (i + 1)).result,
            sleeps := 2 ^ i :: (makeRequestGo attempts mr fuel (i + 1)).sleeps,
            attemptsUsed := (makeRequestGo attempts mr fuel (i + 1)).attemptsUsed + 1 }) ∧
    (∀ (attempts : Nat → AttemptResult) (mr fuel i : Nat),
        attempts i = AttemptResult.exc → ¬ i < mr - 1 →
        makeRequestGo attempts mr (fuel + 1) i =
          { result := Except.ok none, sleeps := [], attemptsUsed := 1 }) ∧
    (∀ mr : Nat,
        make_request (fun _ => AttemptResult.exc) mr =
          { result := Except.ok none,
            sleeps := (List.range (mr - 1)).map (2 ^ ·),
            attemptsUsed := mr }) := by
  refine ⟨?_, ?_, ?_⟩
  · intro attempts mr fuel i hexc hlt
    simp [makeRequestGo, hexc, hlt]
  · intro attempts mr fuel i hexc hlt
    simp [makeRequestGo, hexc, hlt]
  · intro mr
    have h := makeRequestGo_exc mr mr 0 (by omega)
    simp [make_request, h, List.range_eq_range']

/-- C9 witness: the step facts of `make_request_transport_backoff` applied
at `maxRetries = 3`, attempts 0 (non-final) and 2 (final). -/
theorem make_request_transport_backoff_witness :
    (makeRequestGo (fun _ => AttemptResult.exc) 3 3 0 =
      { result := (makeRequestGo (fun _ => AttemptResult.exc) 3 2 1).result,
        sleeps := 2 ^ 0 :: (makeRequestGo (fun _ => AttemptResult.exc) 3 2 1).sleeps,
        attemptsUsed := (makeRequestGo (fun _ => AttemptResult.exc) 3 2 1).attemptsUsed + 1 }) ∧
    (makeRequestGo (fun _ => AttemptResult.exc) 3 1 2 =
      { result := Except.ok none, sleeps := [], attemptsUsed := 1 }) :=
  ⟨make_request_transport_backoff.1 (fun _ => AttemptResult.exc) 3 2 0 rfl (by decide),
   make_request_transport_backoff.2.1 (fun _ => AttemptResult.exc) 3 0 2 rfl (by decide)⟩

/-! ### Claims C2 and C5: batch scheduling -/

/-- With a positive batch size, the `while remaining > 0` loop emits batches
that are positive, bounded by the batch size, and sum to the initial
`remaining`, provided the fuel covers the iterations. -/
lemma batchLoop_spec (bs : Nat) (hbs : 0 < bs) :
    ∀ (fuel r : Nat), r ≤ fuel →
      (batchLoop bs fuel r).sum = r ∧
      ∀ b ∈ batchLoop bs fuel r, 0 < b ∧ b ≤ bs := by
  intro fuel
  induction fuel with
  | zero =>
    intro r hr
    obtain rfl : r = 0 := by omega
    simp [batchLoop]
  | succ n ih =>
    intro r hr
    match r with
    | 0 => simp [batchLoop]
    | m + 1 =>
      have hcur : 0 < min bs (m + 1) := by omega
      have hrest := ih (m + 1 - min bs (m + 1)) (by omega)
      simp only [batchLoop, List.sum_cons, List.mem_cons]
      constructor
      · have : min bs (m + 1) ≤ m + 1 := Nat.min_le_right _ _
        omega
      · intro b hb
        rcases hb with hb | hb
        · subst hb
          exact ⟨hcur, Nat.min_le_left _ _⟩
        · exact hrest.2 b hb

/-- C2: for positive `targetCount` and positive configured batch size, the
sizes of the `execute_focused_action` runs issued by `run_focused_mode` for
one action sum exactly to `targetCount`, are all positive, and never exceed
the batch size (a single batch of `targetCount` when `targetCount ≤`
batch size, else `min(batchSize, remaining)` repeatedly). -/
theorem run_focused_batches_spec (selfBatchSize target : Nat)
    (htarget : 0 < target) (hbatch : 0 < selfBatchSize) :
    (run_focused_batches selfBatchSize target).sum = target ∧
    ∀ b ∈ run_focused_batches selfBatchSize target, 0 < b ∧ b ≤ selfBatchSize := by
  unfold run_focused_batches
  by_cases h : target > selfBatchSize
  · rw [if_pos h, Nat.min_eq_left (Nat.le_of_lt h)]
    exact batchLoop_spec selfBatchSize hbatch target target le_rfl
  · rw [if_neg h]
    refine ⟨by simp, ?_⟩
    intro b hb
    simp only [List.mem_singleton] at hb
    subst hb
    exact ⟨htarget, by omega⟩

/-- C2 witness: `run_focused_batches_spec` at batch size 50, target 120
(the loop emits `[50, 50, 20]`). -/
theorem run_focused_batches_spec_witness :
    (run_focused_batches 50 120).sum = 120 :=
  (run_focused_batches_spec 50 120 (by decide) (by decide)).1

/-- C5 counterexample: for target 100 and configured batch size 50, a cycle
of `run_continuous_mode` issues one undivided `execute_focused_action` run
of 100 targets (src/main.py lines 530-533), while the single-pass
`run_focused_mode` splits the same action into batches `[50, 50]` — the two
modes do not run the same per-account behavior. -/
theorem run_continuous_no_batch_split :
    run_continuous_batches 100 ≠ run_focused_batches 50 100 ∧
    run_continuous_batches 100 = [100] ∧
    run_focused_batches 50 100 = [50, 50] := by
  refine ⟨?_, rfl, rfl⟩
  decide

/-- C5 (amended): a cycle of continuous mode always issues each action's
full `targetCount` as one undivided run, never delegating to the batch
scheduler; it agrees with the single-pass Plan Runner exactly in the case
`targetCount ≤ batchSize`. -/
theorem run_continuous_single_run (target selfBatchSize : Nat)
    (h : target ≤ selfBatchSize) :
    run_continuous_batches target = [target] ∧
    run_continuous_batches target = run_focused_batches selfBatchSize target := by
  refine ⟨rfl, ?_⟩
  unfold run_continuous_batches run_focused_batches
  rw [if_neg (by omega)]

/-- C5 amended witness: `run_continuous_single_run` at target 30, batch
size 50. -/
theorem run_continuous_single_run_witness :
    run_continuous_batches 30 = [30] ∧
    run_continuous_batches 30 = run_focused_batches 50 30 :=
  run_continuous_single_run 30 50 (by decide)

/-! ### Claim C4: status-code semantics of the four action wrappers -/

/-- C4: `like_cast`, `recast` and `follow_user` return true iff the response
exists and has status 200; `post_cast` returns true iff the response exists
and has status 201 (so a post answered with 200 is recorded as failed); and
an absent response (`None`, transport retries exhausted) yields `false`
from all four — the wrappers are total functions of the response, no
exception escapes them. -/
theorem action_wrappers_status_codes (response : Option Response) :
    (like_cast response = true ↔ ∃ r, response = some r ∧ r.status = 200) ∧
    (recast response = true ↔ ∃ r, response = some r ∧ r.status = 200) ∧
    (follow_user response = true ↔ ∃ r, response = some r ∧ r.status = 200) ∧
    (post_cast response = true ↔ ∃ r, response = some r ∧ r.status = 201) ∧
    (like_cast none = false ∧ recast none = false ∧
      follow_user none = false ∧ post_cast none = false) ∧
    (∀ ra b, post_cast (some ⟨200, ra, b⟩) = false) := by
  cases response with
  | none => simp [like_cast, recast, follow_user, post_cast]
  | some r => simp [like_cast, recast, follow_user, post_cast]

/-! ### Claims C8 and C10: `get_feed` -/

/-- C8 counterexample: an HTTP 200 feed response whose body `response.json()`
cannot parse makes `get_feed` raise the uncaught decode exception
(`Except.error ()`), not return the failure result `(False, [])` that the
claim requires for a 200 response with no parseable body. -/
theorem get_feed_unparseable_body_raises :
    get_feed (some ⟨200, RetryAfterHeader.absent, none⟩) 100 = Except.error () ∧
    get_feed (some ⟨200, RetryAfterHeader.absent, none⟩) 100 ≠
      Except.ok (false, ([] : List Target)) := by
  exact ⟨rfl, by simp [get_feed]⟩

/-- C8 (amended): `get_feed` returns the failure result `(False, [])`
whenever the call returned no response or a non-200 status; a 200 response
whose body is unparseable raises the JSON decode exception instead of
returning a failure; a 200 response that parses but yields zero usable
items (no `result.items`, or every item unusable) returns `(True, [])` —
an empty success, not a failure; and each item lacking a truthy hash or a
truthy author fid is silently dropped by the filter. -/
theorem get_feed_error_handling :
    (∀ limit : Nat, get_feed none limit = Except.ok (false, [])) ∧
    (∀ (r : Response) (limit : Nat), r.status ≠ 200 →
        get_feed (some r) limit = Except.ok (false, [])) ∧
    (∀ (ra : RetryAfterHeader) (limit : Nat),
        get_feed (some ⟨200, ra, some none⟩) limit = Except.ok (true, [])) ∧
    (∀ (ra : RetryAfterHeader) (items : List FeedItem) (limit : Nat),
        get_feed (some ⟨200, ra, some (some items)⟩) limit =
          Except.ok (true, (items.take limit).filterMap usableTarget)) ∧
    (∀ (ra : RetryAfterHeader) (items : List FeedItem) (limit : Nat),
        (∀ it ∈ items, usableTarget it = none) →
        get_feed (some ⟨200, ra, some (some items)⟩) limit =
          Except.ok (true, [])) := by
  refine ⟨fun limit => rfl, ?_, fun ra limit => by simp [get_feed], ?_, ?_⟩
  · intro r limit hne
    simp [get_feed, hne]
  · intro ra items limit
    simp [get_feed]
  · intro ra items limit hall
    have hnil : (items.take limit).filterMap usableTarget = [] := by
      rw [List.filterMap_eq_nil_iff]
      intro it hit
      exact hall it (List.mem_of_mem_take hit)
    simp [get_feed, hnil]

/-- C8 amended witness: `get_feed_error_handling` applied to a 404 response
and to a 200 response whose only items have an empty hash or fid 0. -/
theorem get_feed_error_handling_witness :
    get_feed (some ⟨404, RetryAfterHeader.absent, some (some [])⟩) 100 =
      Except.ok (false, []) ∧
    get_feed (some ⟨200, RetryAfterHeader.absent,
        some (some [⟨some ⟨some "", some 3, none⟩⟩, ⟨some ⟨some "h", some 0, none⟩⟩])⟩) 100 =
      Except.ok (true, []) :=
  ⟨get_feed_error_handling.2.1 ⟨404, RetryAfterHeader.absent, some (some [])⟩ 100 (by decide),
   get_feed_error_handling.2.2.2.2 RetryAfterHeader.absent
     [⟨some ⟨some "", some 3, none⟩⟩, ⟨some ⟨some "h", some 0, none⟩⟩] 100 (by decide)⟩

/-- C10: on a 200 feed response with parsed items, `get_feed` truncates the
raw item list to `limit` BEFORE filtering for usability, so the returned
list is the usable subset of the first `limit` raw items, has length at
most `limit`, and can be shorter than `limit` even when the full response
holds at least `limit` usable items (concretely: with items `[bad, good1,
good2]` and `limit = 2`, only `good1` is returned although the response has
2 usable items). -/
theorem get_feed_truncates_before_filter :
    (∀ (ra : RetryAfterHeader) (items : List FeedItem) (limit : Nat),
        get_feed (some ⟨200, ra, some (some items)⟩) limit =
          Except.ok (true, (items.take limit).filterMap usableTarget) ∧
        ((items.take limit).filterMap usableTarget).length ≤ limit) ∧
    (get_feed (some ⟨200, RetryAfterHeader.absent,
        some (some [⟨some ⟨some "", some 1, none⟩⟩,
                    ⟨some ⟨some "h1", some 1, none⟩⟩,
                    ⟨some ⟨some "h2", some 2, none⟩⟩])⟩) 2 =
      Except.ok (true, [⟨"h1", 1, ""⟩]) ∧
    (([⟨some ⟨some "", some 1, none⟩⟩,
       ⟨some ⟨some "h1", some 1, none⟩⟩,
       ⟨some ⟨some "h2", some 2, none⟩⟩] : List FeedItem).filterMap usableTarget).length = 2) := by
  refine ⟨?_, rfl, rfl⟩
  intro ra items limit
  refine ⟨by simp [get_feed], ?_⟩
  calc ((items.take limit).filterMap usableTarget).length
      ≤ (items.take limit).length := List.length_filterMap_le _ _
    _ ≤ limit := items.length_take_le limit

/-! ### Helper lemmas about the focused-action loop -/

/-- Every iteration of the action loop processes exactly one target. -/
lemma focusedLoop_processed (action : ActionType) (api : Nat → Bool) (tc : Nat) :
    ∀ (sel : List Target) (idx : Nat) (s : RunState),
      (focusedLoop action api tc sel idx s).processed = s.processed + sel.length := by
  intro sel
  induction sel with
  | nil => intro idx s; simp [focusedLoop]
  | cons t rest ih =>
    intro idx s
    cases action with
    | follow =>
      simp only [focusedLoop]
      by_cases hmem : t.fid ∈ s.followedFids
      · rw [if_pos hmem, ih]
        simp only [List.length_cons]
        omega
      · rw [if_neg hmem, ih]
        simp only [List.length_cons]
        omega
    | like =>
      simp only [focusedLoop]
      rw [ih]
      simp only [List.length_cons]
      omega
    | recast =>
      simp only [focusedLoop]
      rw [ih]
      simp only [List.length_cons]
      omega

/-- Each iteration of the action loop increments `success_count` at most
once. -/
lemma focusedLoop_success_le (action : ActionType) (api : Nat → Bool) (tc : Nat) :
    ∀ (sel : List Target) (idx : Nat) (s : RunState),
      (focusedLoop action api tc sel idx s).successCount ≤
        s.successCount + sel.length := by
  intro sel
  induction sel with
  | nil => intro idx s; simp [focusedLoop]
  | cons t rest ih =>
    intro idx s
    cases action with
    | follow =>
      simp only [focusedLoop]
      by_cases hmem : t.fid ∈ s.followedFids
      · rw [if_pos hmem]
        refine le_trans (ih _ _) ?_
        dsimp only
        simp only [List.length_cons]
        omega
      · rw [if_neg hmem]
        refine le_trans (ih _ _) ?_
        dsimp only
        by_cases hok : api idx = true <;> simp [hok, List.length_cons] <;> omega
    | like =>
      simp only [focusedLoop]
      refine le_trans (ih _ _) ?_
      dsimp only
      by_cases hok : api idx = true <;> simp [hok, List.length_cons] <;> omega
    | recast =>
      simp only [focusedLoop]
      refine le_trans (ih _ _) ?_
      dsimp only
      by_cases hok : api idx = true <;> simp [hok, List.length_cons] <;> omega

/-- In follow mode the set `followed_fids` stays duplicate-free (an fid is
added only when it is not yet present) and only ever contains fids taken
from the processed targets. -/
lemma focusedLoop_follow_fids (api : Nat → Bool) (tc : Nat) :
    ∀ (sel : List Target) (idx : Nat) (s : RunState), s.followedFids.Nodup →
      (focusedLoop .follow api tc sel idx s).followedFids.Nodup ∧
      ∀ f ∈ (focusedLoop .follow api tc sel idx s).followedFids,
        f ∈ s.followedFids ∨ f ∈ sel.map Target.fid := by
  intro sel
  induction sel with
  | nil => intro idx s hnd; exact ⟨hnd, fun f hf => Or.inl hf⟩
  | cons t rest ih =>
    intro idx s hnd
    simp only [focusedLoop]
    by_cases hmem : t.fid ∈ s.followedFids
    · rw [if_pos hmem]
      obtain ⟨h1, h2⟩ := ih (idx + 1)
        { s with successCount := s.successCount + 1, processed := s.processed + 1 } hnd
      refine ⟨h1, fun f hf => ?_⟩
      rcases h2 f hf with h | h
      · exact Or.inl h
      · exact Or.inr (by simp [h])
    · rw [if_neg hmem]
      by_cases hok : api idx = true
      · have hnd1 : (s.followedFids ++ [t.fid]).Nodup := by
          simp [List.nodup_append, hnd, hmem]
        obtain ⟨h1, h2⟩ := ih (idx + 1)
          { successCount := if api idx then s.successCount + 1 else s.successCount,
            followedFids := if api idx then s.followedFids ++ [t.fid] else s.followedFids,
            callLog := s.callLog ++ [t.fid],
            sleptIters := if idx < tc then s.sleptIters ++ [idx] else s.sleptIters,
            processed := s.processed + 1 } (by simp [hok, hnd1])
        refine ⟨h1, fun f hf => ?_⟩
        rcases h2 f hf with h | h
        · simp only [hok, if_true, List.mem_append, List.mem_singleton] at h
          rcases h with h | h
          · exact Or.inl h
          · exact Or.inr (by simp [h])
        · exact Or.inr (by simp [h])
      · obtain ⟨h1, h2⟩ := ih (idx + 1)
          { successCount := if api idx then s.successCount + 1 else s.successCount,
            followedFids := if api idx then s.followedFids ++ [t.fid] else s.followedFids,
            callLog := s.callLog ++ [t.fid],
            sleptIters := if idx < tc then s.sleptIters ++ [idx] else s.sleptIters,
            processed := s.processed + 1 } (by simp [hok, hnd])
        refine ⟨h1, fun f hf => ?_⟩
        rcases h2 f hf with h | h
        · simp only [hok, if_false, Bool.false_eq_true] at h
          exact Or.inl (by simpa using h)
        · exact Or.inr (by simp [h])

/-- In follow mode, as long as every already-followed fid has been logged as
an API call (true of the initial empty state), the fids ever passed to
`follow_user` are exactly the previously logged ones plus the fids of the
remaining targets: every distinct author among the targets is called at
least once, and nothing else is called. -/
lemma focusedLoop_follow_callLog (api : Nat → Bool) (tc : Nat) :
    ∀ (sel : List Target) (idx : Nat) (s : RunState),
      (∀ f ∈ s.followedFids, f ∈ s.callLog) →
      ∀ f, f ∈ (focusedLoop .follow api tc sel idx s).callLog ↔
        (f ∈ s.callLog ∨ f ∈ sel.map Target.fid) := by
  intro sel
  induction sel with
  | nil => intro idx s hinv f; simp [focusedLoop]
  | cons t rest ih =>
    intro idx s hinv f
    simp only [focusedLoop]
    by_cases hmem : t.fid ∈ s.followedFids
    · rw [if_pos hmem]
      rw [ih (idx + 1)
        { s with successCount := s.successCount + 1, processed := s.processed + 1 } hinv f]
      have hcall : t.fid ∈ s.callLog := hinv t.fid hmem
      simp only [List.map_cons, List.mem_cons]
      constructor
      · rintro (h | h)
        · exact Or.inl h
        · exact Or.inr (Or.inr h)
      · rintro (h | h | h)
        · exact Or.inl h
        · exact Or.inl (h ▸ hcall)
        · exact Or.inr h
    · rw [if_neg hmem]
      have hinv1 : ∀ g ∈ (if api idx then s.followedFids ++ [t.fid] else s.followedFids),
          g ∈ s.callLog ++ [t.fid] := by
        intro g hg
        by_cases hok : api idx = true
        · simp only [hok, if_true, List.mem_append, List.mem_singleton] at hg
          rcases hg with hg | hg
          · exact List.mem_append_left _ (hinv g hg)
          · exact List.mem_append_right _ (by simp [hg])
        · simp only [hok, if_false, Bool.false_eq_true] at hg
          exact List.mem_append_left _ (hinv g (by simpa using hg))
      rw [ih (idx + 1)
        { successCount := if api idx then s.successCount + 1 else s.successCount,
          followedFids := if api idx then s.followedFids ++ [t.fid] else s.followedFids,
          callLog := s.callLog ++ [t.fid],
          sleptIters := if idx < tc then s.sleptIters ++ [idx] else s.sleptIters,
          processed := s.processed + 1 } hinv1 f]
      simp only [List.mem_append, List.mem_singleton, List.map_cons, List.mem_cons]
      tauto

/-! ### Claims C3, C6 and C7: `execute_focused_action` -/

/-- C7: if the feed fetch failed or produced no usable targets,
`execute_focused_action` returns 0 immediately (the untouched initial
state); and when the feed yields `m` usable targets with `0 < m <
target_count`, the runner silently lowers the target to `m`, processes
exactly `m` targets, and its success count is at most `m`. -/
theorem focused_feed_scarcity (action : ActionType) (api : Nat → Bool)
    (tc : Nat) (shuffled : List Target) :
    (execute_focused_action action api tc false shuffled = initRunState) ∧
    (execute_focused_action action api tc true [] = initRunState) ∧
    (initRunState.successCount = 0) ∧
    (0 < shuffled.length → shuffled.length < tc →
      (execute_focused_action action api tc true shuffled).processed = shuffled.length ∧
      (execute_focused_action action api tc true shuffled).successCount ≤
        shuffled.length) := by
  refine ⟨by simp [execute_focused_action], by simp [execute_focused_action], rfl, ?_⟩
  intro hpos hlt
  have hne : shuffled ≠ [] := by
    intro h
    rw [h] at hpos
    simp at hpos
  simp only [execute_focused_action, if_neg (by simp [hne] : ¬(true = false ∨ shuffled = []))]
  simp only [if_pos hlt, List.take_length]
  constructor
  · rw [focusedLoop_processed]
    simp [initRunState]
  · have h := focusedLoop_success_le action api shuffled.length shuffled 1 initRunState
    simpa [initRunState] using h

/-- C7 witness: `focused_feed_scarcity` with target 5 and a feed yielding
only 2 usable targets: exactly 2 are processed and at most 2 succeed. -/
theorem focused_feed_scarcity_witness :
    (execute_focused_action .like (fun _ => true) 5 true
        [⟨"a", 1, ""⟩, ⟨"b", 2, ""⟩]).processed = 2 ∧
    (execute_focused_action .like (fun _ => true) 5 true
        [⟨"a", 1, ""⟩, ⟨"b", 2, ""⟩]).successCount ≤ 2 :=
  (focused_feed_scarcity .like (fun _ => true) 5
    [⟨"a", 1, ""⟩, ⟨"b", 2, ""⟩]).2.2.2 (by decide) (by decide)

/-- C3 counterexample: a follow run whose two sampled targets are different
casts by the SAME author (fid 5), with every API call succeeding, records 2
successes while the run's sampled targets contain only 1 distinct author id
— the first iteration follows fid 5 and the second counts the already-
followed author as a success again, so the recorded success count exceeds
the number of distinct authors. -/
theorem follow_success_exceeds_distinct_authors :
    (execute_focused_action .follow (fun _ => true) 2 true
        [⟨"a", 5, ""⟩, ⟨"b", 5, ""⟩]).successCount = 2 ∧
    ((([⟨"a", 5, ""⟩, ⟨"b", 5, ""⟩] : List Target).map Target.fid).toFinset).card = 1 ∧
    2 > 1 := by
  refine ⟨rfl, by decide, by decide⟩

/-- C3 (amended): in a follow run the recorded success count never exceeds
the number of sampled targets processed (each repeat of an already-followed
author contributes one success, so the distinct-author bound fails), and it
is the number of SUCCESSFUL follow API calls — the size of the
duplicate-free `followed_fids` set — that never exceeds the number of
distinct author ids among the sampled targets. -/
theorem follow_success_bounded_by_sampled (api : Nat → Bool) (tc : Nat)
    (fetchOk : Bool) (shuffled : List Target) :
    (execute_focused_action .follow api tc fetchOk shuffled).successCount ≤
      (execute_focused_action .follow api tc fetchOk shuffled).processed ∧
    (execute_focused_action .follow api tc fetchOk shuffled).processed ≤ tc ∧
    (execute_focused_action .follow api tc fetchOk shuffled).followedFids.Nodup ∧
    (execute_focused_action .follow api tc fetchOk shuffled).followedFids.length ≤
      ((shuffled.take (if shuffled.length < tc then shuffled.length else tc)).map
          Target.fid).toFinset.card := by
  by_cases hguard : fetchOk = false ∨ shuffled = []
  · simp [execute_focused_action, hguard, initRunState]
  · simp only [execute_focused_action, if_neg hguard]
    have hproc := focusedLoop_processed .follow api
      (if shuffled.length < tc then shuffled.length else tc)
      (shuffled.take (if shuffled.length < tc then shuffled.length else tc)) 1 initRunState
    have hsucc := focusedLoop_success_le .follow api
      (if shuffled.length < tc then shuffled.length else tc)
      (shuffled.take (if shuffled.length < tc then shuffled.length else tc)) 1 initRunState
    have hfids := focusedLoop_follow_fids api
      (if shuffled.length < tc then shuffled.length else tc)
      (shuffled.take (if shuffled.length < tc then shuffled.length else tc)) 1 initRunState
      (by simp [initRunState])
    refine ⟨?_, ?_, hfids.1, ?_⟩
    · rw [hproc]
      simpa [initRunState] using hsucc
    · rw [hproc]
      have h1 : (shuffled.take (if shuffled.length < tc then shuffled.length else tc)).length ≤
          (if shuffled.length < tc then shuffled.length else tc) :=
        List.length_take_le _ _
      have h2 : (if shuffled.length < tc then shuffled.length else tc) ≤ tc := by
        split <;> omega
      simp only [initRunState]
      omega
    · rw [← List.toFinset_card_of_nodup hfids.1]
      apply Finset.card_le_card
      intro f hf
      rw [List.mem_toFinset] at hf ⊢
      rcases hfids.2 f hf with h | h
      · simp [initRunState] at h
      · exact h

/-- C6: in a follow run whose sampled targets contain `k` distinct author
ids (`targetCount ≥ k`), the set of author fids passed to `follow_user` is
exactly the set of author fids of the sampled targets — `k` distinct
authors are called; a target whose author is already in `followed_fids` is
counted as a success with no API call and no inter-action delay for that
iteration (the loop short-circuits to the next target); and an author fid
is appended to `followed_fids` exactly when its follow call succeeds. -/
theorem follow_dedup_distinct_calls (api : Nat → Bool) (tc : Nat)
    (shuffled : List Target)
    (hk : ((shuffled.take (if shuffled.length < tc then shuffled.length else tc)).map
        Target.fid).toFinset.card ≤ tc) :
    ((execute_focused_action .follow api tc true shuffled).callLog.toFinset =
      ((shuffled.take (if shuffled.length < tc then shuffled.length else tc)).map
          Target.fid).toFinset) ∧
    (∀ (t : Target) (rest : List Target) (idx : Nat) (s : RunState),
        t.fid ∈ s.followedFids →
        focusedLoop .follow api tc (t :: rest) idx s =
          focusedLoop .follow api tc rest (idx + 1)
            { s with successCount := s.successCount + 1,
                     processed := s.processed + 1 }) ∧
    (∀ (t : Target) (rest : List Target) (idx : Nat) (s : RunState),
        t.fid ∉ s.followedFids →
        focusedLoop .follow api tc (t :: rest) idx s =
          focusedLoop .follow api tc rest (idx + 1)
            { successCount := if api idx then s.successCount + 1 else s.successCount,
              followedFids := if api idx then s.followedFids ++ [t.fid] else s.followedFids,
              callLog := s.callLog ++ [t.fid],
              sleptIters := if idx < tc then s.sleptIters ++ [idx] else s.sleptIters,
              processed := s.processed + 1 }) := by
  refine ⟨?_, ?_, ?_⟩
  · by_cases hne : shuffled = []
    · subst hne
      simp [execute_focused_action, initRunState]
    · simp only [execute_focused_action,
        if_neg (by simp [hne] : ¬(true = false ∨ shuffled = []))]
      apply Finset.ext
      intro f
      rw [List.mem_toFinset, List.mem_toFinset]
      rw [focusedLoop_follow_callLog api _ _ 1 initRunState (by simp [initRunState]) f]
      simp [initRunState]
  · intro t rest idx s hmem
    simp only [focusedLoop]
    rw [if_pos hmem]
  · intro t rest idx s hmem
    simp only [focusedLoop]
    rw [if_neg hmem]

/-- C6 witness: `follow_dedup_distinct_calls` on a two-target run with
distinct authors 5 and 6: exactly the fids `{5, 6}` are called. -/
theorem follow_dedup_distinct_calls_witness :
    (execute_focused_action .follow (fun _ => true) 2 true
        [⟨"a", 5, ""⟩, ⟨"b", 6, ""⟩]).callLog.toFinset = ({5, 6} : Finset Nat) := by
  have h := (follow_dedup_distinct_calls (fun _ => true) 2
    [⟨"a", 5, ""⟩, ⟨"b", 6, ""⟩] (by decide)).1
  rw [h]
  decide
